import Mathlib

/-!
# Verification of the N8N workflow analyser front-end

A shallow embedding of the repository's core logic:

* `Json` — the tree of JSON values manipulated by the application
  (numbers are modelled as integers; every document appearing in the
  verified properties is integer-valued).
* `Json.parse` / `stringifyPretty` — executable models of the host
  `JSON.parse` and `JSON.stringify(·, null, 2)` used by the application.
* `lodashSet` — model of the `lodash` `set` deep write used by
  `correctedWorkflowJson` (`App.tsx`).
* `AppState` and the event handlers `handleAnalyze`, `toggleFix`,
  `approveAllFixes`, `analyzeAnother` — the session state machine of
  `App.tsx`, with the React `useState`/`useRef` cells made explicit fields
  and the asynchronous analyzer call abstracted as an `AnalyzerOutcome`.
* `analyzeResponse` — the response post-processing of
  `services/geminiService.ts` (code-fence stripping, body parse, and the
  opportunistic re-parse of each `errors[].jsonModification.newValue`).
-/

/-- A JSON value.  Objects are insertion-ordered association lists, which is
how the host keeps string-keyed object properties; numbers are modelled as
integers (no document in scope carries a fractional number). -/
inductive Json where
  | null : Json
  | bool (b : Bool) : Json
  | num (n : Int) : Json
  | str (s : String) : Json
  | arr (items : List Json) : Json
  | obj (fields : List (String × Json)) : Json

mutual

/-- Decidable equality of JSON values. -/
def jsonDecEq : (a b : Json) → Decidable (a = b)
  | .null, b =>
    match b with
    | .null => isTrue rfl
    | .bool _ => isFalse (fun h => Json.noConfusion h)
    | .num _ => isFalse (fun h => Json.noConfusion h)
    | .str _ => isFalse (fun h => Json.noConfusion h)
    | .arr _ => isFalse (fun h => Json.noConfusion h)
    | .obj _ => isFalse (fun h => Json.noConfusion h)
  | .bool x, b =>
    match b with
    | .null => isFalse (fun h => Json.noConfusion h)
    | .bool y =>
      match decEq x y with
      | isTrue h => isTrue (h ▸ rfl)
      | isFalse h => isFalse (fun hh => h (Json.bool.inj hh))
    | .num _ => isFalse (fun h => Json.noConfusion h)
    | .str _ => isFalse (fun h => Json.noConfusion h)
    | .arr _ => isFalse (fun h => Json.noConfusion h)
    | .obj _ => isFalse (fun h => Json.noConfusion h)
  | .num x, b =>
    match b with
    | .null => isFalse (fun h => Json.noConfusion h)
    | .bool _ => isFalse (fun h => Json.noConfusion h)
    | .num y =>
      match decEq x y with
      | isTrue h => isTrue (h ▸ rfl)
      | isFalse h => isFalse (fun hh => h (Json.num.inj hh))
    | .str _ => isFalse (fun h => Json.noConfusion h)
    | .arr _ => isFalse (fun h => Json.noConfusion h)
    | .obj _ => isFalse (fun h => Json.noConfusion h)
  | .str x, b =>
    match b with
    | .null => isFalse (fun h => Json.noConfusion h)
    | .bool _ => isFalse (fun h => Json.noConfusion h)
    | .num _ => isFalse (fun h => Json.noConfusion h)
    | .str y =>
      match decEq x y with
      | isTrue h => isTrue (h ▸ rfl)
      | isFalse h => isFalse (fun hh => h (Json.str.inj hh))
    | .arr _ => isFalse (fun h => Json.noConfusion h)
    | .obj _ => isFalse (fun h => Json.noConfusion h)
  | .arr l1, b =>
    match b with
    | .null => isFalse (fun h => Json.noConfusion h)
    | .bool _ => isFalse (fun h => Json.noConfusion h)
    | .num _ => isFalse (fun h => Json.noConfusion h)
    | .str _ => isFalse (fun h => Json.noConfusion h)
    | .arr l2 =>
      match jsonListDecEq l1 l2 with
      | isTrue h => isTrue (h ▸ rfl)
      | isFalse h => isFalse (fun hh => h (Json.arr.inj hh))
    | .obj _ => isFalse (fun h => Json.noConfusion h)
  | .obj f1, b =>
    match b with
    | .null => isFalse (fun h => Json.noConfusion h)
    | .bool _ => isFalse (fun h => Json.noConfusion h)
    | .num _ => isFalse (fun h => Json.noConfusion h)
    | .str _ => isFalse (fun h => Json.noConfusion h)
    | .arr _ => isFalse (fun h => Json.noConfusion h)
    | .obj f2 =>
      match jsonFieldsDecEq f1 f2 with
      | isTrue h => isTrue (h ▸ rfl)
      | isFalse h => isFalse (fun hh => h (Json.obj.inj hh))

/-- Decidable equality of JSON value lists. -/
def jsonListDecEq : (a b : List Json) → Decidable (a = b)
  | [], [] => isTrue rfl
  | [], _ :: _ => isFalse (fun h => List.noConfusion h)
  | _ :: _, [] => isFalse (fun h => List.noConfusion h)
  | x :: xs, y :: ys =>
    match jsonDecEq x y with
    | isTrue h1 =>
      match jsonListDecEq xs ys with
      | isTrue h2 => isTrue (h1 ▸ h2 ▸ rfl)
      | isFalse h2 => isFalse (fun h => h2 (List.cons.inj h).2)
    | isFalse h1 => isFalse (fun h => h1 (List.cons.inj h).1)

/-- Decidable equality of JSON object field lists. -/
def jsonFieldsDecEq : (a b : List (String × Json)) → Decidable (a = b)
  | [], [] => isTrue rfl
  | [], _ :: _ => isFalse (fun h => List.noConfusion h)
  | _ :: _, [] => isFalse (fun h => List.noConfusion h)
  | (k1, v1) :: r1, (k2, v2) :: r2 =>
    match decEq k1 k2 with
    | isTrue hk =>
      match jsonDecEq v1 v2 with
      | isTrue hv =>
        match jsonFieldsDecEq r1 r2 with
        | isTrue hr => isTrue (by rw [hk, hv, hr])
        | isFalse hr => isFalse (fun h => hr (List.cons.inj h).2)
      | isFalse hv =>
        isFalse (fun h => hv (congrArg Prod.snd (List.cons.inj h).1))
    | isFalse hk =>
      isFalse (fun h => hk (congrArg Prod.fst (List.cons.inj h).1))

end

instance : DecidableEq Json := jsonDecEq

/-- The opening-brace character, `U+007B`. -/
def lbraceChar : Char := Char.ofNat 123

/-- The closing-brace character, `U+007D`. -/
def rbraceChar : Char := Char.ofNat 125

/-- JSON insignificant whitespace (RFC 8259): space, tab, line feed,
carriage return. -/
def jsonWsChar (c : Char) : Bool :=
  c = ' ' || c = '\t' || c = '\n' || c = '\r'

/-- Whitespace recognised by JavaScript `String.prototype.trim` and the
regular-expression class `\s` (restricted to the characters that can occur
in the texts in scope). -/
def jsWsChar (c : Char) : Bool :=
  c = ' ' || c = '\t' || c = '\n' || c = '\r' ||
  c = Char.ofNat 11 || c = Char.ofNat 12 || c = Char.ofNat 160 ||
  c = Char.ofNat 65279

/-- Character-level model of JavaScript `String.prototype.trim`. -/
def strTrim (s : String) : String :=
  String.mk (((s.data.dropWhile jsWsChar).reverse.dropWhile jsWsChar).reverse)

/-- `startsWithChars hs needle` holds when `needle` occurs at the front of
`hs`. -/
def startsWithChars : List Char → List Char → Bool
  | _, [] => true
  | [], _ :: _ => false
  | c :: cs, d :: ds => c = d && startsWithChars cs ds

/-- `occursChars hs needle` holds when `needle` occurs somewhere in `hs`. -/
def occursChars : List Char → List Char → Bool
  | hs, needle =>
    startsWithChars hs needle ||
      match hs with
      | [] => false
      | _ :: rest => occursChars rest needle

/-- Model of JavaScript `String.prototype.includes`. -/
def strIncludes (s sub : String) : Bool :=
  occursChars s.data sub.data

/-- Splits a character list on a separator character; like JavaScript
`String.prototype.split` with a single-character separator. -/
def splitOnCharAux (sep : Char) : List Char → List Char → List (List Char)
  | [], acc => [acc.reverse]
  | c :: rest, acc =>
    if c = sep then acc.reverse :: splitOnCharAux sep rest []
    else splitOnCharAux sep rest (c :: acc)

/-- Splits a character list on a separator character. -/
def splitOnChar (sep : Char) (cs : List Char) : List (List Char) :=
  splitOnCharAux sep cs []

/-! ## `JSON.parse` -/

/-- Value of a hexadecimal digit, if any. -/
def hexVal (c : Char) : Option Nat :=
  if '0' ≤ c ∧ c ≤ '9' then some (c.toNat - 48)
  else if 'a' ≤ c ∧ c ≤ 'f' then some (c.toNat - 87)
  else if 'A' ≤ c ∧ c ≤ 'F' then some (c.toNat - 55)
  else none

/-- The character denoted by a single-character JSON escape sequence. -/
def escChar (c : Char) : Option Char :=
  if c = '"' then some '"'
  else if c = '\\' then some '\\'
  else if c = '/' then some '/'
  else if c = 'b' then some (Char.ofNat 8)
  else if c = 'f' then some (Char.ofNat 12)
  else if c = 'n' then some '\n'
  else if c = 'r' then some '\r'
  else if c = 't' then some '\t'
  else none

/-- Parses the body of a JSON string after the opening quote; returns the
decoded characters and the input remaining after the closing quote. -/
def parseStringBody : List Char → Option (List Char × List Char)
  | [] => none
  | '\\' :: 'u' :: a :: b :: c :: d :: rest =>
    match hexVal a, hexVal b, hexVal c, hexVal d with
    | some x, some y, some z, some w =>
      match parseStringBody rest with
      | some (cs, r) => some (Char.ofNat (((x * 16 + y) * 16 + z) * 16 + w) :: cs, r)
      | none => none
    | _, _, _, _ => none
  | '\\' :: e :: rest =>
    match escChar e with
    | some ec =>
      match parseStringBody rest with
      | some (cs, r) => some (ec :: cs, r)
      | none => none
    | none => none
  | c :: rest =>
    if c = '"' then some ([], rest)
    else if c.toNat < 32 then none
    else
      match parseStringBody rest with
      | some (cs, r) => some (c :: cs, r)
      | none => none

/-- Splits a leading run of decimal digits from the input. -/
def takeDigits : List Char → List Char × List Char
  | [] => ([], [])
  | c :: rest =>
    if c.isDigit then
      let p := takeDigits rest
      (c :: p.1, p.2)
    else ([], c :: rest)

/-- Numeric value of a digit string. -/
def digitsToNat (ds : List Char) : Nat :=
  ds.foldl (fun acc c => acc * 10 + (c.toNat - 48)) 0

/-- Parses a JSON number (integer grammar; fractional and exponent forms do
not occur in any document in scope and are rejected). -/
def parseNumberChars (cs : List Char) : Option (Json × List Char) :=
  let p : Bool × List Char :=
    match cs with
    | '-' :: rest => (true, rest)
    | _ => (false, cs)
  match takeDigits p.2 with
  | ([], _) => none
  | (ds, rest) =>
    if 1 < ds.length ∧ ds.head? = some '0' then none
    else
      match rest with
      | '.' :: _ => none
      | 'e' :: _ => none
      | 'E' :: _ => none
      | _ =>
        let n : Int := Int.ofNat (digitsToNat ds)
        some (Json.num (if p.1 then -n else n), rest)

mutual

/-- Parses one JSON value (fuelled recursion; the fuel only bounds nesting
depth, and `Json.parse` supplies more fuel than any input can consume). -/
def parseValue : Nat → List Char → Option (Json × List Char)
  | 0, _ => none
  | Nat.succ fuel, cs =>
    match cs.dropWhile jsonWsChar with
    | [] => none
    | '"' :: rest =>
      match parseStringBody rest with
      | some (content, r) => some (Json.str (String.mk content), r)
      | none => none
    | 'n' :: 'u' :: 'l' :: 'l' :: rest => some (Json.null, rest)
    | 't' :: 'r' :: 'u' :: 'e' :: rest => some (Json.bool true, rest)
    | 'f' :: 'a' :: 'l' :: 's' :: 'e' :: rest => some (Json.bool false, rest)
    | '[' :: rest =>
      match rest.dropWhile jsonWsChar with
      | ']' :: r => some (Json.arr [], r)
      | _ =>
        match parseElements fuel rest with
        | some (items, r) => some (Json.arr items, r)
        | none => none
    | c :: rest =>
      if c = lbraceChar then
        match rest.dropWhile jsonWsChar with
        | [] => none
        | d :: r =>
          if d = rbraceChar then some (Json.obj [], r)
          else
            match parseMembers fuel rest with
            | some (fields, r2) => some (Json.obj fields, r2)
            | none => none
      else parseNumberChars (c :: rest)

/-- Parses the comma-separated elements of a JSON array up to and including
the closing bracket. -/
def parseElements : Nat → List Char → Option (List Json × List Char)
  | 0, _ => none
  | Nat.succ fuel, cs =>
    match parseValue fuel cs with
    | none => none
    | some (v, r) =>
      match r.dropWhile jsonWsChar with
      | ',' :: r2 =>
        match parseElements fuel r2 with
        | some (vs, r3) => some (v :: vs, r3)
        | none => none
      | ']' :: r2 => some ([v], r2)
      | _ => none

/-- Parses the comma-separated members of a JSON object up to and including
the closing brace. -/
def parseMembers : Nat → List Char → Option (List (String × Json) × List Char)
  | 0, _ => none
  | Nat.succ fuel, cs =>
    match cs.dropWhile jsonWsChar with
    | '"' :: rest =>
      match parseStringBody rest with
      | some (kcs, r) =>
        match r.dropWhile jsonWsChar with
        | ':' :: r2 =>
          match parseValue fuel r2 with
          | none => none
          | some (v, r3) =>
            match r3.dropWhile jsonWsChar with
            | [] => none
            | ',' :: r4 =>
              match parseMembers fuel r4 with
              | some (fs, r5) => some ((String.mk kcs, v) :: fs, r5)
              | none => none
            | d :: r4 =>
              if d = rbraceChar then some ([(String.mk kcs, v)], r4) else none
        | _ => none
      | none => none
    | _ => none

end

/-- Model of the host `JSON.parse`: `none` models the thrown
`SyntaxError`. -/
def Json.parse (s : String) : Option Json :=
  match parseValue (s.length + 1) s.data with
  | some (j, rest) => if rest.dropWhile jsonWsChar = [] then some j else none
  | none => none

/-! ## `JSON.stringify(·, null, 2)` -/

/-- Lower-case hexadecimal digit character. -/
def hexDigitChar (n : Nat) : Char :=
  if n < 10 then Char.ofNat (48 + n) else Char.ofNat (87 + n)

/-- Escapes the characters of a string the way `JSON.stringify` does. -/
def escapeStringChars : List Char → List Char
  | [] => []
  | c :: rest =>
    if c = '"' then '\\' :: '"' :: escapeStringChars rest
    else if c = '\\' then '\\' :: '\\' :: escapeStringChars rest
    else if c = '\n' then '\\' :: 'n' :: escapeStringChars rest
    else if c = '\r' then '\\' :: 'r' :: escapeStringChars rest
    else if c = '\t' then '\\' :: 't' :: escapeStringChars rest
    else if c = Char.ofNat 8 then '\\' :: 'b' :: escapeStringChars rest
    else if c = Char.ofNat 12 then '\\' :: 'f' :: escapeStringChars rest
    else if c.toNat < 32 then
      '\\' :: 'u' :: '0' :: '0' :: hexDigitChar (c.toNat / 16) ::
        hexDigitChar (c.toNat % 16) :: escapeStringChars rest
    else c :: escapeStringChars rest

/-- A string rendered as a quoted JSON string literal. -/
def quoteJson (s : String) : String :=
  String.mk ('"' :: escapeStringChars s.data ++ ['"'])

/-- `n` spaces of indentation. -/
def indentStr (n : Nat) : String :=
  String.mk (List.replicate n ' ')

/-- Joins pretty-printed entry lines with `",\n"`. -/
def joinLines (ls : List String) : String :=
  String.intercalate ",\n" ls

mutual

/-- `JSON.stringify(·, null, 2)` at a given enclosing indentation. -/
def stringifyAt : Nat → Json → String
  | _, Json.null => "null"
  | _, Json.bool true => "true"
  | _, Json.bool false => "false"
  | _, Json.num n => toString n
  | _, Json.str s => quoteJson s
  | ind, Json.arr items =>
    match items with
    | [] => "[]"
    | _ :: _ =>
      "[\n" ++ joinLines (stringifyItems (ind + 2) items) ++ "\n" ++
        indentStr ind ++ "]"
  | ind, Json.obj fields =>
    match fields with
    | [] => "\x7b\x7d"
    | _ :: _ =>
      "\x7b\n" ++ joinLines (stringifyFields (ind + 2) fields) ++ "\n" ++
        indentStr ind ++ "\x7d"

/-- Pretty-printed lines of the elements of an array. -/
def stringifyItems : Nat → List Json → List String
  | _, [] => []
  | ind, j :: rest => (indentStr ind ++ stringifyAt ind j) :: stringifyItems ind rest

/-- Pretty-printed lines of the members of an object. -/
def stringifyFields : Nat → List (String × Json) → List String
  | _, [] => []
  | ind, (k, v) :: rest =>
    (indentStr ind ++ quoteJson k ++ ": " ++ stringifyAt ind v) ::
      stringifyFields ind rest

end

/-- Model of `JSON.stringify(value, null, 2)`. -/
def stringifyPretty (j : Json) : String :=
  stringifyAt 0 j

/-! ## The deep copy `JSON.parse(JSON.stringify(x))`

`correctedWorkflowJson` copies the original workflow with
`JSON.parse(JSON.stringify(originalWorkflow.current))` before applying any
patch.  On the JSON trees modelled here that round trip rebuilds the tree
node by node, which `deepCopy` models directly; `deepCopy_id` proves the
copy is deep-equal to its pre-image. -/

mutual

/-- Structural rebuild of a JSON tree, modelling the
`JSON.parse(JSON.stringify(x))` deep copy. -/
def deepCopy : Json → Json
  | Json.null => Json.null
  | Json.bool b => Json.bool b
  | Json.num n => Json.num n
  | Json.str s => Json.str s
  | Json.arr items => Json.arr (deepCopyList items)
  | Json.obj fields => Json.obj (deepCopyFields fields)

/-- Deep copy of an array's elements. -/
def deepCopyList : List Json → List Json
  | [] => []
  | j :: rest => deepCopy j :: deepCopyList rest

/-- Deep copy of an object's fields. -/
def deepCopyFields : List (String × Json) → List (String × Json)
  | [] => []
  | (k, v) :: rest => (k, deepCopy v) :: deepCopyFields rest

end

mutual

/-- The deep copy is deep-equal to the document it copies. -/
theorem deepCopy_id : ∀ j : Json, deepCopy j = j
  | Json.null => rfl
  | Json.bool _ => rfl
  | Json.num _ => rfl
  | Json.str _ => rfl
  | Json.arr items => by rw [deepCopy, deepCopyList_id items]
  | Json.obj fields => by rw [deepCopy, deepCopyFields_id fields]

/-- Element-wise deep copy is the identity. -/
theorem deepCopyList_id : ∀ l : List Json, deepCopyList l = l
  | [] => rfl
  | j :: rest => by rw [deepCopyList, deepCopy_id j, deepCopyList_id rest]

/-- Field-wise deep copy is the identity. -/
theorem deepCopyFields_id : ∀ l : List (String × Json), deepCopyFields l = l
  | [] => rfl
  | (k, v) :: rest => by rw [deepCopyFields, deepCopy_id v, deepCopyFields_id rest]

end

/-! ## The `lodash` deep write `set(object, path, value)` -/

/-- Reads the property `k` of a JSON object's field list (first binding;
the host keeps object keys unique). -/
def lookupField : List (String × Json) → String → Option Json
  | [], _ => none
  | (k', v) :: rest, k => if k' = k then some v else lookupField rest k

/-- Writes property `k` of a JSON object's field list: an existing binding
is replaced in place, a new binding is appended — JavaScript property
assignment order semantics. -/
def setField : List (String × Json) → String → Json → List (String × Json)
  | [], k, v => [(k, v)]
  | (k', v') :: rest, k, v =>
    if k' = k then (k, v) :: rest else (k', v') :: setField rest k v

/-- Removes property `k` from a JSON object's field list. -/
def removeField (fields : List (String × Json)) (k : String) :
    List (String × Json) :=
  fields.filter (fun kv => kv.1 ≠ k)

/-- `lodash` `isIndex` on a path segment: a canonical decimal numeral
(the `MAX_SAFE_INTEGER` bound is irrelevant at the sizes in scope). -/
def isIndexSeg (s : String) : Bool :=
  match s.data with
  | [] => false
  | c :: rest => (c.isDigit && rest.all Char.isDigit) && (rest = [] || c ≠ '0')

/-- Numeric value of an index segment. -/
def segToNat (s : String) : Nat :=
  digitsToNat s.data

/-- JavaScript array index assignment: assigning past the end fills the gap
with holes, which serialize as `null`. -/
def listSetPad (items : List Json) (idx : Nat) (v : Json) : List Json :=
  if idx < items.length then items.set idx v
  else items ++ List.replicate (idx - items.length) Json.null ++ [v]

/-- A value on which `lodash` `baseSet` descends (its `isObject`): an array
or an object. -/
def Json.isContainer : Json → Bool
  | Json.arr _ => true
  | Json.obj _ => true
  | _ => false

/-- The fresh intermediate container `baseSet` creates when the next path
segment is (not) an array index. -/
def freshContainer (nextSeg : String) : Json :=
  if isIndexSeg nextSeg then Json.arr [] else Json.obj []

/-- `lodash` `baseSet` over an already-split path.  Missing or
non-container intermediates are replaced by a fresh array or object
according to the following segment; a non-index key written on an array
becomes a non-index property, which is invisible to JSON serialization and
is modelled as leaving the array unchanged. -/
def baseSet : Json → List String → Json → Json
  | root, [], _ => root
  | Json.obj fields, [k], v => Json.obj (setField fields k v)
  | Json.arr items, [k], v =>
    if isIndexSeg k then Json.arr (listSetPad items (segToNat k) v)
    else Json.arr items
  | Json.obj fields, k :: k2 :: rest, v =>
    let child :=
      match lookupField fields k with
      | some c => if c.isContainer then c else freshContainer k2
      | none => freshContainer k2
    Json.obj (setField fields k (baseSet child (k2 :: rest) v))
  | Json.arr items, k :: k2 :: rest, v =>
    if isIndexSeg k then
      let child :=
        match items.get? (segToNat k) with
        | some c => if c.isContainer then c else freshContainer k2
        | none => freshContainer k2
      Json.arr (listSetPad items (segToNat k) (baseSet child (k2 :: rest) v))
    else Json.arr items
  | root, _ :: _, _ => root

/-- `lodash` `stringToPath` on plain dot- and bracket-index paths (the
quoted-bracket-key forms never occur in the patches in scope): brackets are
treated as separators and empty segments are dropped. -/
def stringToPath (s : String) : List String :=
  ((splitOnChar '.' ((s.data.map (fun c => if c = '[' then '.' else c)).filter
      (fun c => c ≠ ']'))).map String.mk).filter (fun seg => seg ≠ "")

/-- Model of `lodash` `set(object, path, value)` on a string path. -/
def lodashSet (object : Json) (path : String) (value : Json) : Json :=
  baseSet object (stringToPath path) value

/-! ## Data model (`types.ts`) -/

/-- Issue severity (`WorkflowError.severity` in `types.ts`). -/
inductive Severity where
  | critical : Severity
  | warning : Severity
  | info : Severity
  deriving DecidableEq

/-- `WorkflowError.jsonModification` in `types.ts`: one proposed patch.
On the wire `newValue` is a string; by the time a `WorkflowError` reaches
the application state it has been opportunistically re-parsed (see
`postErrorStep`), so here it is a JSON value. -/
structure JsonModification where
  path : String
  newValue : Json
  requiresUserInput : Bool
  deriving DecidableEq

/-- `WorkflowError` in `types.ts`: one detected issue. -/
structure WorkflowError where
  id : String
  severity : Severity
  description : String
  impact : String
  nodeId : Option String
  recommendation : String
  jsonModification : JsonModification
  deriving DecidableEq

/-- `AnalysisResult.summary` in `types.ts`. -/
structure Summary where
  accomplishment : String
  trigger : String
  finalOutcome : String
  analogy : String
  deriving DecidableEq

/-- `NodeBreakdown` in `types.ts`. -/
structure NodeBreakdown where
  nodeId : String
  nodeName : String
  purpose : String
  requiredInputs : String
  configurationNeeds : String
  output : String
  visualMetaphor : String
  deriving DecidableEq

/-- `AnalysisResult` in `types.ts`. -/
structure AnalysisResult where
  isValid : Bool
  summary : Summary
  textFlow : String
  nodeBreakdowns : List NodeBreakdown
  errors : List WorkflowError
  deriving DecidableEq

/-! ## Session state machine (`App.tsx`) -/

/-- The UI stage (`type Stage` in `App.tsx`). -/
inductive Stage where
  | input : Stage
  | analyzing : Stage
  | results : Stage
  deriving DecidableEq

/-- The state owned by the `App` component: each field is one
`useState`/`useRef` cell of `App.tsx`.  `approvedFixes` models the
JavaScript `Set<string>` by its membership; `openSections` models the
`Record<string, boolean>` as an insertion-ordered binding list. -/
structure AppState where
  stage : Stage
  jsonInput : String
  analysisResult : Option AnalysisResult
  apiError : Option String
  approvedFixes : Finset String
  openSections : List (String × Bool)
  hasApiKey : Bool
  originalWorkflow : Option Json
  deriving DecidableEq

/-- The outcome of the asynchronous `analyzeWorkflow` call as observed by
`handleAnalyze`'s `try`/`catch`: either a structured result or a thrown
error's message (a non-`Error` throw surfaces as the message
`"An unknown error occurred."`). -/
inductive AnalyzerOutcome where
  | success (result : AnalysisResult) : AnalyzerOutcome
  | failure (message : String) : AnalyzerOutcome

/-- Error message for empty input (`App.tsx` line 90). -/
def emptyInputMsg : String := "JSON input cannot be empty."

/-- Error message for unparseable input (`App.tsx` line 99). -/
def invalidJsonMsg : String := "Invalid JSON format. Please check your input."

/-- The failure signature of a rejected or revoked credential
(`App.tsx` line 115). -/
def entityNotFoundSubstr : String := "Requested entity was not found"

/-- Error message shown when the credential was rejected
(`App.tsx` line 116). -/
def invalidKeyMsg : String :=
  "The selected API key is invalid or has been revoked. Please select a different key."

/-- `handleAnalyze` (`App.tsx` lines 88–123) as one transition on the
final state: the guard chain (empty input, JSON parse) runs first; on a
valid parse the pre-call clearing happens and then the analyzer outcome is
committed. -/
def handleAnalyze (s : AppState) (outcome : AnalyzerOutcome) : AppState :=
  if strTrim s.jsonInput = "" then
    { s with apiError := some emptyInputMsg }
  else
    match Json.parse s.jsonInput with
    | none => { s with apiError := some invalidJsonMsg }
    | some parsedJson =>
      let s1 : AppState :=
        { s with
          originalWorkflow := some parsedJson
          stage := Stage.analyzing
          apiError := none
          analysisResult := none
          approvedFixes := ∅
          openSections := [] }
      match outcome with
      | AnalyzerOutcome.success result =>
        { s1 with analysisResult := some result, stage := Stage.results }
      | AnalyzerOutcome.failure message =>
        if strIncludes message entityNotFoundSubstr then
          { s1 with
            apiError := some invalidKeyMsg
            hasApiKey := false
            stage := Stage.input }
        else
          { s1 with apiError := some message, stage := Stage.input }

/-- `toggleFix` (`App.tsx` lines 125–135): flips membership of `errorId`
in the approved-fix set. -/
def toggleFix (errorId : String) (s : AppState) : AppState :=
  { s with
    approvedFixes :=
      if errorId ∈ s.approvedFixes then s.approvedFixes.erase errorId
      else insert errorId s.approvedFixes }

/-- `approveAllFixes` (`App.tsx` lines 137–145): replaces the approved-fix
set with the ids of the auto-fixable errors of the current result; a no-op
when there is no result. -/
def approveAllFixes (s : AppState) : AppState :=
  match s.analysisResult with
  | none => s
  | some result =>
    { s with
      approvedFixes :=
        ((result.errors.filter
            (fun e => !e.jsonModification.requiresUserInput)).map
          (fun e => e.id)).toFinset }

/-- `toggleSection` (`App.tsx` lines 174–176): flips one section's
expansion flag. -/
def toggleSection (id : String) (s : AppState) : AppState :=
  { s with
    openSections :=
      let prev := (s.openSections.lookup id).getD false
      (s.openSections.filter (fun kv => kv.1 ≠ id)) ++ [(id, !prev)] }

/-- The `onClick` handler of the "Analyze Another Workflow" button
(`App.tsx` lines 387–394): `() => setStage('input')`. -/
def analyzeAnother (s : AppState) : AppState :=
  { s with stage := Stage.input }

/-- The patch-application loop of `correctedWorkflowJson`
(`App.tsx` lines 150–156): a deep copy of the original document, then each
error's modification applied in order when its id is approved. -/
def applyFixes (original : Json) (errors : List WorkflowError)
    (approved : Finset String) : Json :=
  errors.foldl
    (fun acc e =>
      if e.id ∈ approved then
        lodashSet acc e.jsonModification.path e.jsonModification.newValue
      else acc)
    (deepCopy original)

/-- `correctedWorkflowJson` (`App.tsx` lines 147–159): `none` when either
the original document or the analysis result is absent, otherwise the
pretty-printed corrected document. -/
def correctedWorkflowJson (s : AppState) : Option String :=
  match s.originalWorkflow, s.analysisResult with
  | some orig, some result =>
    some (stringifyPretty (applyFixes orig result.errors s.approvedFixes))
  | _, _ => none

/-- `correctedWorkflowJson` with the `originalWorkflow.current` reference
cell made explicit: the second component is the value held by that cell
after the computation.  The body deep-copies the original and every
`lodashSet` rebinds the copy (`correctedWorkflow`), never the cell, which
is the source's `JSON.parse(JSON.stringify(...))`-then-mutate-the-copy
discipline. -/
def correctedWorkflowRun (original : Json) (errors : List WorkflowError)
    (approved : Finset String) : String × Json :=
  let corrected := deepCopy original
  let corrected :=
    errors.foldl
      (fun acc e =>
        if e.id ∈ approved then
          lodashSet acc e.jsonModification.path e.jsonModification.newValue
        else acc)
      corrected
  (stringifyPretty corrected, original)

/-! ## Analyzer response post-processing (`services/geminiService.ts`) -/

/-- The code-fence stripping
`resultText.replace(/^```json\s*|```$/g, '')`: a leading ` ```json ` (with
following whitespace) and a trailing ` ``` ` are removed. -/
def stripCodeFence (s : String) : String :=
  let cs := s.data
  let cs :=
    if startsWithChars cs ("```json").data then
      (cs.drop 7).dropWhile jsWsChar
    else cs
  let cs :=
    if startsWithChars cs.reverse ("```").data.reverse then
      cs.take (cs.length - 3)
    else cs
  String.mk cs

/-- The `nodeId` normalization at the head of the post-processing loop
body (`geminiService.ts`): `if (error.nodeId === "") error.nodeId =
undefined` — an empty-string `nodeId` (the prompt's encoding of a
document-wide issue) becomes absent; any other record is untouched. -/
def normalizeNodeId (fields : List (String × Json)) : List (String × Json) :=
  if lookupField fields "nodeId" = some (Json.str "") then
    removeField fields "nodeId"
  else fields

/-- The per-error post-processing loop body of `analyzeWorkflow`
(`geminiService.ts`): an empty-string `nodeId` is normalized to absent, and
a string `newValue` is opportunistically re-parsed as JSON, falling back to
the raw string (the inner `try` swallows the parse failure).  `none` models
the `TypeError` thrown outside that inner `try` when the element is `null`;
a `newValue` that is not a string is left as is (the wire schema makes it a
string). -/
def postErrorStep : Json → Option Json
  | Json.null => none
  | Json.obj fields0 =>
    let fields := normalizeNodeId fields0
    match lookupField fields "jsonModification" with
    | some (Json.obj jm) =>
      match lookupField jm "newValue" with
      | some (Json.str s) =>
        match Json.parse s with
        | some v =>
          some (Json.obj (setField fields "jsonModification"
            (Json.obj (setField jm "newValue" v))))
        | none => some (Json.obj fields)
      | _ => some (Json.obj fields)
    | _ => some (Json.obj fields)
  | other => some other

/-- The `result.errors.forEach` loop: fails hard if any element fails. -/
def postErrors : List Json → Option (List Json)
  | [] => some []
  | e :: rest =>
    match postErrorStep e with
    | none => none
    | some e2 =>
      match postErrors rest with
      | some rest2 => some (e2 :: rest2)
      | none => none

/-- The response handling of `analyzeWorkflow` (`geminiService.ts` lines
96–114): trim, strip the optional markdown code fence, `JSON.parse` the
body (a parse failure is the thrown `SyntaxError`, re-raised as the
analyzer error), then post-process every element of `errors` (reading
`.errors.forEach` on a body without an `errors` array throws, also an
analyzer error).  `none` models the function throwing. -/
def analyzeResponse (respText : String) : Option Json :=
  match Json.parse (stripCodeFence (strTrim respText)) with
  | none => none
  | some body =>
    match body with
    | Json.obj fields =>
      match lookupField fields "errors" with
      | some (Json.arr errs) =>
        match postErrors errs with
        | some errs2 =>
          some (Json.obj (setField fields "errors" (Json.arr errs2)))
        | none => none
      | _ => none
    | _ => none


/-! ## Concrete values used by the concrete checks -/

/-- An auto-fixable issue targeting `a.b`. -/
def sampleFixable : WorkflowError :=
  { id := "e1", severity := Severity.warning, description := "d", impact := "i",
    nodeId := none, recommendation := "r",
    jsonModification :=
      { path := "a.b", newValue := Json.num 2, requiresUserInput := false } }

/-- An issue whose patch requires user input. -/
def sampleManual : WorkflowError :=
  { id := "e2", severity := Severity.critical, description := "d2", impact := "i2",
    nodeId := some "n1", recommendation := "r2",
    jsonModification :=
      { path := "a.c", newValue := Json.str "<PASTE_YOUR_SECRET_API_KEY_HERE>",
        requiresUserInput := true } }

/-- An auto-fixable issue targeting the absent path `x.y`. -/
def samplePathErr : WorkflowError :=
  { id := "x1", severity := Severity.info, description := "d3", impact := "i3",
    nodeId := none, recommendation := "r3",
    jsonModification :=
      { path := "x.y", newValue := Json.str "z", requiresUserInput := false } }

/-- A concrete analysis summary. -/
def sampleSummary : Summary :=
  { accomplishment := "a", trigger := "t", finalOutcome := "f", analogy := "g" }

/-- A concrete analysis result with one auto-fixable and one manual issue. -/
def sampleResult : AnalysisResult :=
  { isValid := false, summary := sampleSummary, textFlow := "A -> B",
    nodeBreakdowns := [], errors := [sampleFixable, sampleManual] }

/-- The document of the spec's first patcher example. -/
def sampleDoc : Json := Json.obj [("a", Json.obj [("b", Json.num 1)])]

/-- A session sitting on the results screen, with both ids toggled on
(including the manual one) and one section expanded. -/
def resultsState : AppState :=
  { stage := Stage.results, jsonInput := "\x7b\"a\": \x7b\"b\": 1\x7d\x7d",
    analysisResult := some sampleResult, apiError := none,
    approvedFixes := {"e1", "e2"}, openSections := [("e1", true)],
    hasApiKey := true, originalWorkflow := some sampleDoc }

/-- A fresh session on the input screen holding the given text. -/
def inputState (text : String) : AppState :=
  { stage := Stage.input, jsonInput := text, analysisResult := none,
    apiError := none, approvedFixes := ∅, openSections := [],
    hasApiKey := true, originalWorkflow := some sampleDoc }

/-- A results-stage session whose approved-fix set is empty. -/
def emptyApprovedState : AppState :=
  { stage := Stage.results, jsonInput := "\x7b\"a\": \x7b\"b\": 1\x7d\x7d",
    analysisResult := some sampleResult, apiError := none,
    approvedFixes := ∅, openSections := [], hasApiKey := true,
    originalWorkflow := some sampleDoc }

/-- A wire-format `jsonModification` whose `newValue` string is not JSON. -/
def wireJm : List (String × Json) :=
  [("path", Json.str "a.b"), ("newValue", Json.str "not json"),
   ("requiresUserInput", Json.bool false)]

/-- A wire-format error record around `wireJm` for a document-wide issue:
its `nodeId` is the empty string, the encoding the service's prompt
mandates when a problem is not tied to one node. -/
def wireErrFields : List (String × Json) :=
  [("id", Json.str "e1"), ("nodeId", Json.str ""),
   ("jsonModification", Json.obj wireJm)]

/-- A failure message carrying the entity-not-found signature. -/
def sampleFailureMsg : String :=
  "Error analyzing workflow with Gemini: Requested entity was not found."

/-! ## Helper lemmas -/

/-- Writing a property with the value it already holds leaves the field
list unchanged. -/
theorem setField_of_lookupField (l : List (String × Json)) (k : String)
    (v : Json) (h : lookupField l k = some v) : setField l k v = l := by
  induction l with
  | nil => simp [lookupField] at h
  | cons kv rest ih =>
    obtain ⟨k', v'⟩ := kv
    by_cases hk : k' = k
    · subst hk
      simp [lookupField] at h
      simp [setField, h]
    · simp [lookupField, hk] at h
      simp [setField, hk, ih h]

/-- Folding the patch loop over an empty approved set never writes. -/
theorem foldl_patches_empty (es : List WorkflowError) (acc : Json) :
    es.foldl
      (fun acc e =>
        if e.id ∈ (∅ : Finset String) then
          lodashSet acc e.jsonModification.path e.jsonModification.newValue
        else acc)
      acc = acc := by
  induction es generalizing acc with
  | nil => rfl
  | cons e rest ih =>
    rw [List.foldl_cons, if_neg (Finset.not_mem_empty e.id)]
    exact ih acc

/-! ## Claims -/

/-- C1 (counterexample): on the concrete results-stage session
`resultsState`, the "Analyze Another Workflow" transition sets the stage to
`input` but clears neither the analysis result, nor the approved-fix set,
nor the section-expansion state, nor the stored original document —
refuting the claim that the transition clears them. -/
theorem analyzeAnother_does_not_clear :
    (analyzeAnother resultsState).stage = Stage.input ∧
    (analyzeAnother resultsState).analysisResult = some sampleResult ∧
    (analyzeAnother resultsState).approvedFixes ≠ (∅ : Finset String) ∧
    (analyzeAnother resultsState).openSections ≠ ([] : List (String × Bool)) ∧
    (analyzeAnother resultsState).originalWorkflow ≠ (none : Option Json) := by
  refine ⟨rfl, rfl, ?_, ?_, ?_⟩ <;> decide

/-- C1 (amended): the `results → input` transition triggered by "Analyze
Another Workflow" changes only the stage; the stored original document,
analysis result, approved-fix set, section-expansion state and the
credential-present flag are all left unchanged (the stores are cleared
later, when the next analysis is submitted). -/
theorem analyzeAnother_sets_stage_only (s : AppState) :
    (analyzeAnother s).stage = Stage.input ∧
    (analyzeAnother s).originalWorkflow = s.originalWorkflow ∧
    (analyzeAnother s).analysisResult = s.analysisResult ∧
    (analyzeAnother s).approvedFixes = s.approvedFixes ∧
    (analyzeAnother s).openSections = s.openSections ∧
    (analyzeAnother s).hasApiKey = s.hasApiKey :=
  ⟨rfl, rfl, rfl, rfl, rfl, rfl⟩

/-- C2: whatever the prior approved-fix set, `approveAllFixes` replaces it
with exactly the ids of the current result's errors whose patch has
`requiresUserInput = false`, and calling it twice yields the same state as
calling it once. -/
theorem approveAllFixes_spec (s : AppState) (r : AnalysisResult)
    (h : s.analysisResult = some r) :
    (∀ x, x ∈ (approveAllFixes s).approvedFixes ↔
      ∃ e ∈ r.errors, e.id = x ∧ e.jsonModification.requiresUserInput = false)
    ∧ approveAllFixes (approveAllFixes s) = approveAllFixes s := by
  constructor
  · intro x
    simp only [approveAllFixes, h, List.mem_toFinset, List.mem_map,
      List.mem_filter, Bool.not_eq_true']
    constructor
    · rintro ⟨e, ⟨he, hreq⟩, hid⟩
      exact ⟨e, he, hid, hreq⟩
    · rintro ⟨e, he, hid, hreq⟩
      exact ⟨e, ⟨he, hreq⟩, hid⟩
  · simp only [approveAllFixes, h]

/-- C2 (witness): in `resultsState` both `e1` and the manual `e2` were
toggled on; `approveAllFixes` replaces the set with exactly `e1`, and a
second call changes nothing. -/
theorem approveAllFixes_spec_witness :
    approveAllFixes (approveAllFixes resultsState) = approveAllFixes resultsState ∧
    (approveAllFixes resultsState).approvedFixes = {"e1"} :=
  ⟨(approveAllFixes_spec resultsState sampleResult rfl).2, by decide⟩

/-- C3: the patcher's writes create missing intermediate containers:
patching `a.b` in an existing nesting replaces the leaf
(`{"a":{"b":1}}` becomes `{"a":{"b":2}}`), patching `x.y` into the empty
document creates the intermediate object (`{}` becomes
`{"x":{"y":"z"}}`), and a numeric segment creates an array (`x.0.y` on
`{}` yields `{"x":[{"y":"z"}]}`). -/
theorem lodashSet_creates_containers :
    applyFixes sampleDoc [sampleFixable] {"e1"}
      = Json.obj [("a", Json.obj [("b", Json.num 2)])] ∧
    applyFixes (Json.obj []) [samplePathErr] {"x1"}
      = Json.obj [("x", Json.obj [("y", Json.str "z")])] ∧
    lodashSet (Json.obj []) "x.0.y" (Json.str "z")
      = Json.obj [("x", Json.arr [Json.obj [("y", Json.str "z")]])] := by
  refine ⟨?_, ?_, ?_⟩ <;> decide

/-- C4: with the `originalWorkflow.current` cell made explicit,
computing the corrected document for any approved set drawn from the
issue ids leaves the cell's value deep-equal to its pre-call value, and
the produced text is the pure function of the inputs. -/
theorem correctedWorkflowRun_preserves_original
    (original : Json) (errors : List WorkflowError) (approved : Finset String)
    (_happ : ∀ a ∈ approved, ∃ e ∈ errors, e.id = a) :
    (correctedWorkflowRun original errors approved).2 = original ∧
    (correctedWorkflowRun original errors approved).1 =
      stringifyPretty (applyFixes original errors approved) :=
  ⟨rfl, rfl⟩

/-- C4 (witness): the concrete run on `sampleDoc` with the approved set
`{e1}` leaves the original cell's value unchanged. -/
theorem correctedWorkflowRun_preserves_original_witness :
    (correctedWorkflowRun sampleDoc [sampleFixable] {"e1"}).2 = sampleDoc ∧
    (correctedWorkflowRun sampleDoc [sampleFixable] {"e1"}).1 =
      stringifyPretty (applyFixes sampleDoc [sampleFixable] {"e1"}) :=
  correctedWorkflowRun_preserves_original sampleDoc [sampleFixable] {"e1"}
    (by decide)

/-- C5: when the analyzer call fails with a message containing
`"Requested entity was not found"` (after a submission that passed the
input guards), `handleAnalyze` clears the credential-present flag,
records the invalid-key error message, and moves the stage to `input`. -/
theorem handleAnalyze_entity_not_found (s : AppState) (message : String)
    (j : Json) (hne : strTrim s.jsonInput ≠ "")
    (hp : Json.parse s.jsonInput = some j)
    (hmsg : strIncludes message entityNotFoundSubstr = true) :
    (handleAnalyze s (AnalyzerOutcome.failure message)).hasApiKey = false ∧
    (handleAnalyze s (AnalyzerOutcome.failure message)).stage = Stage.input ∧
    (handleAnalyze s (AnalyzerOutcome.failure message)).apiError =
      some invalidKeyMsg := by
  simp [handleAnalyze, hne, hp, hmsg]

/-- C5 (witness): a concrete failing run with the entity-not-found
signature resets the key flag, reverts to `input` and records the
invalid-key message. -/
theorem handleAnalyze_entity_not_found_witness :
    (handleAnalyze (inputState "1")
        (AnalyzerOutcome.failure sampleFailureMsg)).hasApiKey = false ∧
    (handleAnalyze (inputState "1")
        (AnalyzerOutcome.failure sampleFailureMsg)).stage = Stage.input ∧
    (handleAnalyze (inputState "1")
        (AnalyzerOutcome.failure sampleFailureMsg)).apiError =
      some invalidKeyMsg :=
  handleAnalyze_entity_not_found (inputState "1") sampleFailureMsg
    (Json.num 1) (by decide) (by decide) (by decide)

/-- C6: on nonempty input that does not parse as JSON, `handleAnalyze`
only records the invalid-format error: the stage and the raw submitted
text (and every other cell) are unchanged. -/
theorem handleAnalyze_invalid_json (s : AppState) (o : AnalyzerOutcome)
    (hne : strTrim s.jsonInput ≠ "") (hp : Json.parse s.jsonInput = none) :
    handleAnalyze s o = { s with apiError := some invalidJsonMsg } ∧
    (handleAnalyze s o).stage = s.stage ∧
    (handleAnalyze s o).jsonInput = s.jsonInput := by
  have h : handleAnalyze s o = { s with apiError := some invalidJsonMsg } := by
    simp [handleAnalyze, hne, hp]
  exact ⟨h, by rw [h], by rw [h]⟩

/-- C6 (witness): submitting the literal text `not json` records the
invalid-format error and leaves the state (including the raw text)
otherwise unchanged. -/
theorem handleAnalyze_invalid_json_witness :
    handleAnalyze (inputState "not json") (AnalyzerOutcome.failure "x") =
      { inputState "not json" with apiError := some invalidJsonMsg } ∧
    (handleAnalyze (inputState "not json") (AnalyzerOutcome.failure "x")).stage =
      (inputState "not json").stage ∧
    (handleAnalyze (inputState "not json") (AnalyzerOutcome.failure "x")).jsonInput =
      (inputState "not json").jsonInput :=
  handleAnalyze_invalid_json (inputState "not json")
    (AnalyzerOutcome.failure "x") (by decide) (by decide)

/-- C7: every wire error record — whatever its `nodeId`, including the
empty string a document-wide issue carries, which the loop first
normalizes via `normalizeNodeId` — whose `jsonModification.newValue` is
the string `s` is post-processed to hold `Json.parse s` when that parse
succeeds and the raw string `s` otherwise, without failing; whereas a
response body that does not parse as JSON after trimming and stripping
the optional code fence makes `analyzeWorkflow` throw (a hard analyzer
error). -/
theorem analyzeResponse_newValue_reparse (respText : String)
    (fields jm : List (String × Json)) (s : String)
    (hjm : lookupField (normalizeNodeId fields) "jsonModification" =
      some (Json.obj jm))
    (hnv : lookupField jm "newValue" = some (Json.str s))
    (hbody : Json.parse (stripCodeFence (strTrim respText)) = none) :
    postErrorStep (Json.obj fields) =
      some (Json.obj (setField (normalizeNodeId fields) "jsonModification"
        (Json.obj (setField jm "newValue" ((Json.parse s).getD (Json.str s))))))
    ∧ analyzeResponse respText = none := by
  constructor
  · simp only [postErrorStep, hjm, hnv]
    cases hps : Json.parse s with
    | some v => simp [hps]
    | none =>
      simp only [hps, Option.getD_none]
      rw [setField_of_lookupField jm "newValue" (Json.str s) hnv,
        setField_of_lookupField (normalizeNodeId fields) "jsonModification"
          (Json.obj jm) hjm]
  · simp [analyzeResponse, hbody]

/-- C7 (witness): the concrete document-wide wire record (empty-string
`nodeId`) keeps its raw `"not json"` string as `newValue` (the
opportunistic parse fails without raising), and the unparseable body
`"not json"` is a hard analyzer error. -/
theorem analyzeResponse_newValue_reparse_witness :
    postErrorStep (Json.obj wireErrFields) =
      some (Json.obj (setField (normalizeNodeId wireErrFields) "jsonModification"
        (Json.obj (setField wireJm "newValue"
          ((Json.parse "not json").getD (Json.str "not json"))))))
    ∧ analyzeResponse "not json" = none :=
  analyzeResponse_newValue_reparse "not json" wireErrFields wireJm "not json"
    (by decide) (by decide) (by decide)

/-- C8: toggling the same id twice returns the approved-fix set to
exactly its original membership. -/
theorem toggleFix_involution (errorId : String) (s : AppState) :
    (toggleFix errorId (toggleFix errorId s)).approvedFixes =
      s.approvedFixes := by
  by_cases h : errorId ∈ s.approvedFixes
  · simp [toggleFix, h, Finset.not_mem_erase, Finset.insert_erase]
  · simp [toggleFix, h, Finset.mem_insert_self, Finset.erase_insert]

/-- C9: with an empty approved-fix set the patch loop writes nothing, so
the corrected document is deep-equal to the original and
`correctedWorkflowJson` is its 2-space pretty-printed serialization. -/
theorem applyFixes_empty_identity (s : AppState) (orig : Json)
    (r : AnalysisResult) (errors : List WorkflowError)
    (ho : s.originalWorkflow = some orig) (hr : s.analysisResult = some r)
    (ha : s.approvedFixes = ∅) :
    applyFixes orig errors ∅ = orig ∧
    correctedWorkflowJson s = some (stringifyPretty orig) := by
  have key : ∀ es : List WorkflowError, applyFixes orig es ∅ = orig := by
    intro es
    unfold applyFixes
    rw [foldl_patches_empty, deepCopy_id]
  refine ⟨key errors, ?_⟩
  simp [correctedWorkflowJson, ho, hr, ha, key r.errors]

/-- C9 (witness): the concrete results-stage session with an empty
approved set reproduces the original document's serialization. -/
theorem applyFixes_empty_identity_witness :
    applyFixes sampleDoc sampleResult.errors ∅ = sampleDoc ∧
    correctedWorkflowJson emptyApprovedState =
      some (stringifyPretty sampleDoc) :=
  applyFixes_empty_identity emptyApprovedState sampleDoc sampleResult
    sampleResult.errors rfl rfl rfl

/-- C10: empty or whitespace-only input is rejected by the guard that
runs before any JSON parsing: the empty-input error is recorded and the
stage, stored document, analysis result and approved-fix set are
unchanged. -/
theorem handleAnalyze_empty_input (s : AppState) (o : AnalyzerOutcome)
    (h : strTrim s.jsonInput = "") :
    handleAnalyze s o = { s with apiError := some emptyInputMsg } ∧
    (handleAnalyze s o).stage = s.stage ∧
    (handleAnalyze s o).originalWorkflow = s.originalWorkflow ∧
    (handleAnalyze s o).analysisResult = s.analysisResult ∧
    (handleAnalyze s o).approvedFixes = s.approvedFixes := by
  have he : handleAnalyze s o = { s with apiError := some emptyInputMsg } := by
    simp [handleAnalyze, h]
  exact ⟨he, by rw [he], by rw [he], by rw [he], by rw [he]⟩

/-- C10 (witness): whitespace-only input (which is also not valid JSON)
gets the empty-input message, showing the guard precedes parsing, with the
rest of the state unchanged. -/
theorem handleAnalyze_empty_input_witness :
    handleAnalyze (inputState "  \n\t ") (AnalyzerOutcome.failure "x") =
      { inputState "  \n\t " with apiError := some emptyInputMsg } ∧
    (handleAnalyze (inputState "  \n\t ") (AnalyzerOutcome.failure "x")).stage =
      (inputState "  \n\t ").stage ∧
    (handleAnalyze (inputState "  \n\t ") (AnalyzerOutcome.failure "x")).originalWorkflow =
      (inputState "  \n\t ").originalWorkflow ∧
    (handleAnalyze (inputState "  \n\t ") (AnalyzerOutcome.failure "x")).analysisResult =
      (inputState "  \n\t ").analysisResult ∧
    (handleAnalyze (inputState "  \n\t ") (AnalyzerOutcome.failure "x")).approvedFixes =
      (inputState "  \n\t ").approvedFixes :=
  handleAnalyze_empty_input (inputState "  \n\t ")
    (AnalyzerOutcome.failure "x") (by decide)
